import Mathlib

/-!
Verification of the prompt-library core (src/script.js and the tracking
variant src/unnamed/part_000) against its specification.

The persisted collection is modelled as a `List Prompt`; every repository
operation is a pure function from the persisted collection to the persisted
collection, mirroring the source's read → mutate → save pattern.  Record and
note identifiers are `String`s: the source always compares identifiers after
`String(...)` coercion (`String(p.id) === String(id)`), and `Date.now()`
values are stringified with `toString`.  Clock reads (`Date.now()`,
`new Date().toISOString()`) are passed in as an explicit `now : Nat`
parameter.  JavaScript numbers appearing here (ratings, token counts) are
exact integers in the source's reachable range, modelled as `Int`/`Nat`;
`Math.round` on the exact decimal fractions used by the estimator is
modelled as `⌊q + 1/2⌋` over `ℚ`.
-/

/-- A note attached to a prompt (source: `addNote`, `updateNote`). -/
structure Note where
  id : String
  text : String
  updatedAt : Nat
deriving DecidableEq

/-- Token estimate `{min, max, confidence}` returned by `estimateTokens`
(src/unnamed/part_000 lines 14-45). `confidence` is one of the literal
strings "high", "medium", "low". -/
structure TokenEstimate where
  min : Int
  max : Int
  confidence : String
deriving DecidableEq

/-- Metadata produced by `trackModel` (src/unnamed/part_000 lines 64-87).
Timestamps are modelled as the clock instant `now : Nat` that the source
formats as an ISO-8601 string. -/
structure Metadata where
  model : String
  createdAt : Nat
  updatedAt : Nat
  tokenEstimate : TokenEstimate
deriving DecidableEq

/-- A stored prompt record.  `userRating` is `none` when the persisted field
is absent or not a number (`typeof p.userRating !== 'number'`), `notes` is
`none` when absent or not an array (`!Array.isArray(p.notes)`), `metadata`
is `none` when absent (simple variant records have no metadata field).
`createdAt`/`updatedAt` are the top-level creation/modification instants of
the spec's superset data model, shown as epoch fields in the README's JSON
export format and consumed by the import merger; records created by the two
src/ variants never set them, so they are `none` there. -/
structure Prompt where
  id : String
  title : String
  content : String
  userRating : Option Int
  notes : Option (List Note)
  metadata : Option Metadata
  createdAt : Option Nat
  updatedAt : Option Nat
deriving DecidableEq

/-- JavaScript's find-the-first-match-and-mutate-it-in-place pattern
(`const x = arr.find(pred); ...mutate x...; save(arr)`): apply `f` to the
first element satisfying `key`, keep everything else in place.  When no
element matches, the source returns early without saving, which leaves the
persisted list unchanged — exactly what `updateFirst` returns. -/
def updateFirst {α : Type} (key : α → Bool) (f : α → α) : List α → List α
  | [] => []
  | x :: xs => if key x then f x :: xs else x :: updateFirst key f xs

/-- JavaScript `String.prototype.trim`: drop leading and trailing
whitespace.  Implemented with structural recursion (`dropWhile` on both
ends) so concrete instances evaluate inside the kernel. -/
def jsTrim (s : String) : String :=
  String.mk (((s.data.dropWhile Char.isWhitespace).reverse.dropWhile Char.isWhitespace).reverse)

/-- `wordsOf text` models `text.trim().split(/\s+/).filter(Boolean)`:
splitting the trimmed text on runs of whitespace and dropping empty pieces
is the same as splitting on every whitespace character and dropping the
empty pieces (leading/trailing whitespace only contributes empty pieces). -/
def wordsOf (text : String) : List String :=
  (text.split (fun c => c.isWhitespace)).filter (fun w => w ≠ "")

/-- `Math.round` on a nonnegative quantity: round half away from zero,
i.e. `⌊q + 1/2⌋`. -/
def jsRound (q : ℚ) : Int :=
  ⌊q + 1/2⌋

/-- Core of `estimateTokens` (src/unnamed/part_000 lines 14-45) on string
input: `min = Math.round(0.75 * wordCount)`, `max = Math.round(0.25 *
charCount)`, both re-rounded after multiplying by 1.3 when `isCode`;
confidence from the average of min and max. -/
def estimateTokensCore (text : String) (isCode : Bool) : TokenEstimate :=
  let wordCount : Nat := (wordsOf text).length
  let charCount : Nat := text.length
  let min0 : Int := jsRound ((3/4 : ℚ) * wordCount)
  let max0 : Int := jsRound ((1/4 : ℚ) * charCount)
  let minT : Int := if isCode then jsRound ((13/10 : ℚ) * min0) else min0
  let maxT : Int := if isCode then jsRound ((13/10 : ℚ) * max0) else max0
  let avgTokens : ℚ := ((minT + maxT : Int) : ℚ) / 2
  let confidence : String :=
    if avgTokens < 1000 then "high"
    else if avgTokens ≤ 5000 then "medium"
    else "low"
  { min := minT, max := maxT, confidence := confidence }

/-- A JavaScript value passed where text is expected: either a string or
some non-string value (the `typeof text !== 'string'` branch). -/
inductive JSVal where
  | str (s : String) : JSVal
  | nonText : JSVal
deriving DecidableEq

/-- `estimateTokens` (src/unnamed/part_000 lines 14-45): throws
`'Text must be a string'` on non-string input, otherwise computes the
estimate. -/
def estimateTokens (input : JSVal) (isCode : Bool) : Except String TokenEstimate :=
  match input with
  | JSVal.nonText => Except.error "Text must be a string"
  | JSVal.str s => Except.ok (estimateTokensCore s isCode)

/-- `trackModel` (src/unnamed/part_000 lines 64-87).  The source also
throws when `content` is not a string; in this embedding `content` is
always a string so that branch is unreachable. -/
def trackModel (now : Nat) (modelName content : String) : Except String Metadata :=
  if jsTrim modelName = "" then Except.error "Model name must be a non-empty string"
  else if 100 < modelName.length then Except.error "Model name must not exceed 100 characters"
  else Except.ok
    { model := jsTrim modelName
      createdAt := now
      updatedAt := now
      tokenEstimate := estimateTokensCore content false }

/-- Is an `Except` result the error case? -/
def isErr {ε α : Type} : Except ε α → Bool
  | Except.error _ => true
  | Except.ok _ => false

/-- `addPrompt` of the simple variant (src/script.js lines 156-161):
unconditionally prepends the record built from the trimmed title and
content with `id: Date.now()` and `userRating: 0`. -/
def addPrompt (now : Nat) (title content : String) (ps : List Prompt) : List Prompt :=
  { id := toString now
    title := jsTrim title
    content := jsTrim content
    userRating := some 0
    notes := none
    metadata := none
    createdAt := none
    updatedAt := none } :: ps

/-- `addPrompt` of the tracking variant (src/unnamed/part_000 lines
374-396): builds metadata via `trackModel`; on error it alerts and returns
without touching the collection, otherwise prepends the new record. -/
def addPromptTracking (now : Nat) (title content modelName : String)
    (ps : List Prompt) : List Prompt :=
  match trackModel now modelName content with
  | Except.error _ => ps
  | Except.ok md =>
      { id := toString now
        title := jsTrim title
        content := jsTrim content
        userRating := some 0
        notes := none
        metadata := some md
        createdAt := none
        updatedAt := none } :: ps

/-- Form submit handler of the simple variant (src/script.js lines
171-182): silently returns when title or content is empty after trimming,
otherwise calls `addPrompt`. -/
def handleSubmit (now : Nat) (title content : String) (ps : List Prompt) : List Prompt :=
  if jsTrim title = "" ∨ jsTrim content = "" then ps
  else addPrompt now title content ps

/-- Form submit handler of the tracking variant (src/unnamed/part_000
lines 406-418): silently returns when title, model, or content is empty
after trimming, otherwise calls the tracking `addPrompt`. -/
def handleSubmitTracking (now : Nat) (title model content : String)
    (ps : List Prompt) : List Prompt :=
  if jsTrim title = "" ∨ jsTrim model = "" ∨ jsTrim content = "" then ps
  else addPromptTracking now title content model ps

/-- `deletePrompt` (src/script.js lines 163-168): keep the records whose
stringified id differs from the stringified argument. -/
def deletePrompt (id : String) (ps : List Prompt) : List Prompt :=
  ps.filter (fun p => !(p.id == id))

/-- `setRating` (src/script.js lines 265-273): no-op when the value is
outside [1,5] or no record matches; otherwise overwrite `userRating` of
the first record whose id matches. -/
def setRating (id : String) (v : Int) (ps : List Prompt) : List Prompt :=
  if v < 1 ∨ 5 < v then ps
  else updateFirst (fun p => p.id == id)
    (fun p => { p with userRating := some v }) ps

/-- `addNote` (src/script.js lines 276-284): find the record, default a
missing notes array to `[]`, and `unshift` the new note (newest-first).
No record found means an early return, i.e. the collection is unchanged. -/
def addNote (now : Nat) (promptId text : String) (ps : List Prompt) : List Prompt :=
  updateFirst (fun p => p.id == promptId)
    (fun p => { p with
      notes := some ({ id := toString now, text := text, updatedAt := now } :: p.notes.getD []) }) ps

/-- `deleteNote` (src/script.js lines 286-294): early return when either
id is falsy (the empty string); otherwise find the record — an early
return when it is absent or its notes field is not an array leaves the
collection unchanged, which is the identity branch below — and filter its
notes by note id. -/
def deleteNote (promptId noteId : String) (ps : List Prompt) : List Prompt :=
  if promptId = "" ∨ noteId = "" then ps
  else updateFirst (fun p => p.id == promptId)
    (fun p => match p.notes with
      | none => p
      | some ns => { p with notes := some (ns.filter (fun n => !(n.id == noteId))) }) ps

/-- `updateNote` (src/script.js lines 296-306): find the record (early
return when absent or notes not an array), find the note (early return
when absent — the inner `updateFirst` is then the identity), overwrite its
text and `updatedAt`. -/
def updateNote (now : Nat) (promptId noteId text : String) (ps : List Prompt) : List Prompt :=
  updateFirst (fun p => p.id == promptId)
    (fun p => match p.notes with
      | none => p
      | some ns => { p with
          notes := some (updateFirst (fun n => n.id == noteId)
            (fun n => { n with text := text, updatedAt := now }) ns) }) ps

/-- The persisted storage cell read by `getPrompts` (src/script.js lines
11-19): the key may be absent (`getItem` returned null, or the falsy empty
string), hold a blob that `JSON.parse` rejects (the catch branch), or hold
a valid serialization of a collection. -/
inductive StorageCell where
  | absent : StorageCell
  | malformed (raw : String) : StorageCell
  | valid (ps : List Prompt) : StorageCell
deriving DecidableEq

/-- `getPrompts` (src/script.js lines 11-19): `raw ? JSON.parse(raw) : []`
wrapped in try/catch returning `[]`. -/
def getPrompts : StorageCell → List Prompt
  | StorageCell.absent => []
  | StorageCell.malformed _ => []
  | StorageCell.valid ps => ps

/-- The backward-compatibility normalization performed on every read in the
render path (src/script.js lines 43-46): coerce a non-numeric `userRating`
to 0 and a non-array `notes` to `[]`; `metadata` is never touched. -/
def normalizePrompt (p : Prompt) : Prompt :=
  { p with
    userRating := some (p.userRating.getD 0)
    notes := some (p.notes.getD []) }

/-- `renderPrompts` (src/script.js lines 33-154) as a storage-level
operation: it reads the collection, normalizes each record for display,
and never calls `savePrompts`, so the persisted collection (first
component) is returned unchanged next to the normalized view. -/
def renderPrompts (st : List Prompt) : List Prompt × List Prompt :=
  (st, st.map normalizePrompt)

/-- Modelled from the spec: sanitization of one incoming import record —
"oversized or missing ids are assigned a fresh unique id; title length is
capped; `updatedAt` is stamped at merge time".  The spec fixes no numeric
id-size bound, no title cap and no concrete fresh-id scheme, so they are
parameters: `idCap` bounds well-formed id length, `titleCap` caps the
title, and `freshId i` is the id the supply assigns to the entry at
position `i` of the incoming sequence. -/
def sanitizeRecord (now titleCap idCap : Nat) (freshId : Nat → String)
    (i : Nat) (r : Prompt) : Prompt :=
  { r with
    id := if r.id = "" ∨ idCap < r.id.length then freshId i else r.id
    title := String.mk (r.title.data.take titleCap)
    updatedAt := some now }

/-- Modelled from the spec: "`incoming` records are first sanitized: any
entry missing a non-empty title or content is dropped"; the surviving
entries are sanitized one by one, the position index feeding the fresh-id
supply. -/
def sanitizeIncoming (now titleCap idCap : Nat) (freshId : Nat → String) :
    Nat → List Prompt → List Prompt
  | _, [] => []
  | i, r :: rs =>
    if jsTrim r.title = "" ∨ jsTrim r.content = "" then
      sanitizeIncoming now titleCap idCap freshId (i + 1) rs
    else
      sanitizeRecord now titleCap idCap freshId i r
        :: sanitizeIncoming now titleCap idCap freshId (i + 1) rs

/-- Modelled from the spec: the identifier-based set union — every
incoming record whose id is not already present in `existing` is added;
records already present are left untouched (existing wins on id
collision, an import never overwrites). -/
def unionById (existing incoming : List Prompt) : List Prompt :=
  existing ++ incoming.filter (fun r => !(existing.any (fun e => e.id == r.id)))

/-- Newest-first order on records by creation instant: `a` may precede `b`
when its creation instant is at least `b`'s; a missing instant counts as 0
(as in the tracking variant's render-path sort, which reads
`a.metadata?.createdAt || 0`). -/
def newestFirst (a b : Prompt) : Bool :=
  decide (b.createdAt.getD 0 ≤ a.createdAt.getD 0)

/-- Modelled from the spec: "Result is re-sorted newest-first by creation
instant." -/
def sortNewestFirst (ps : List Prompt) : List Prompt :=
  ps.mergeSort newestFirst

/-- Modelled from the spec: the import merger `mergeById` belongs to this
repository's import feature, but its code is not under src/ (only the
README bundled in src/unnamed/part_000 mentions importing with merge
without duplicates).  The full pipeline of the spec: sanitize the incoming
records, add every sanitized record whose id is not already present in
`existing`, and re-sort the result newest-first by creation instant. -/
def mergeById (now titleCap idCap : Nat) (freshId : Nat → String)
    (existing incoming : List Prompt) : List Prompt :=
  sortNewestFirst
    (unionById existing (sanitizeIncoming now titleCap idCap freshId 0 incoming))

/-- A concrete fully-shaped prompt used by witnesses. -/
def samplePrompt (i : String) : Prompt :=
  { id := i, title := "t", content := "c", userRating := some 0
    notes := some [], metadata := none, createdAt := none, updatedAt := none }

/-- A concrete raw (old-vintage) prompt lacking rating and notes. -/
def rawPrompt : Prompt :=
  { id := "1", title := "t", content := "c", userRating := none
    notes := none, metadata := none, createdAt := none, updatedAt := none }

/-- A 301-character text, one character over the presentation layer's
maxlength bound. -/
def longText : String :=
  String.mk (List.replicate 301 'a')

/-! ## Helper lemmas -/

theorem updateFirst_eq_of_forall_not {α : Type} (key : α → Bool) (f : α → α)
    (l : List α) (h : ∀ x ∈ l, key x = false) : updateFirst key f l = l := by
  induction l with
  | nil => rfl
  | cons a t ih =>
    have ha := h a (List.mem_cons_self a t)
    simp only [updateFirst, ha, Bool.false_eq_true, if_false]
    rw [ih (fun x hx => h x (List.mem_cons_of_mem a hx))]

theorem updateFirst_getElem? {α : Type} (key : α → Bool) (f : α → α)
    (l : List α) (i : Nat) (q : α) :
    l[i]? = some q → key q = false → (updateFirst key f l)[i]? = some q := by
  induction l generalizing i with
  | nil => intro hq _; simp at hq
  | cons a t ih =>
    intro hq hk
    by_cases ha : key a
    · cases i with
      | zero =>
        rw [List.getElem?_cons_zero, Option.some_inj] at hq
        rw [hq, hk] at ha
        simp at ha
      | succ n =>
        rw [List.getElem?_cons_succ] at hq
        simp only [updateFirst, ha, if_true, List.getElem?_cons_succ]
        exact hq
    · have ha' : key a = false := by simpa using ha
      simp only [updateFirst, ha', Bool.false_eq_true, if_false]
      cases i with
      | zero => rw [List.getElem?_cons_zero] at hq ⊢; exact hq
      | succ n =>
        rw [List.getElem?_cons_succ] at hq ⊢
        exact ih n hq hk

theorem updateFirst_eq_map_of_nodup (id : String) (f : Prompt → Prompt)
    (ps : List Prompt) (h : (ps.map Prompt.id).Nodup) :
    updateFirst (fun p => p.id == id) f ps
      = ps.map (fun p => if p.id = id then f p else p) := by
  induction ps with
  | nil => rfl
  | cons a t ih =>
    rw [List.map_cons, List.nodup_cons] at h
    by_cases ha : a.id = id
    · simp only [updateFirst, ha, beq_self_eq_true, if_true, List.map_cons, if_pos ha]
      congr 1
      have hall : ∀ p ∈ t, (fun p => if p.id = id then f p else p) p = (fun p => p) p := by
        intro p hp
        have : p.id ≠ id := by
          intro he
          exact h.1 (ha ▸ he ▸ List.mem_map_of_mem Prompt.id hp)
        simp [this]
      rw [List.map_congr_left hall, List.map_id']
    · have hb : (a.id == id) = false := by simp [ha]
      simp only [updateFirst, hb, Bool.false_eq_true, if_false, List.map_cons, if_neg ha]
      rw [ih h.2]

theorem jsRound_eq (a b n : Nat) (hb : 0 < b)
    (h1 : 2 * b * n ≤ 2 * a + b) (h2 : 2 * a + b < 2 * b * n + 2 * b) :
    jsRound ((a : ℚ) / (b : ℚ)) = (n : Int) := by
  have hbq : (0 : ℚ) < (b : ℚ) := by exact_mod_cast hb
  have key1 : ((2 * b * n : Nat) : ℚ) ≤ ((2 * a + b : Nat) : ℚ) := by exact_mod_cast h1
  have key2 : ((2 * a + b : Nat) : ℚ) < ((2 * b * n + 2 * b : Nat) : ℚ) := by exact_mod_cast h2
  push_cast at key1 key2
  have hrw : (a : ℚ) / (b : ℚ) + 1 / 2 = ((2 * a + b : ℚ)) / (2 * (b : ℚ)) := by
    field_simp
    ring
  unfold jsRound
  rw [Int.floor_eq_iff, hrw]
  constructor
  · rw [le_div_iff₀ (by positivity)]
    push_cast
    linarith
  · rw [div_lt_iff₀ (by positivity)]
    push_cast
    linarith

theorem round075 (w : Nat) :
    jsRound ((3 / 4 : ℚ) * (w : ℚ)) = (((3 * w + 2) / 4 : Nat) : Int) := by
  have h : (3 / 4 : ℚ) * (w : ℚ) = ((3 * w : Nat) : ℚ) / ((4 : Nat) : ℚ) := by
    push_cast
    ring
  rw [h]
  apply jsRound_eq <;> omega

theorem round025 (c : Nat) :
    jsRound ((1 / 4 : ℚ) * (c : ℚ)) = (((c + 2) / 4 : Nat) : Int) := by
  have h : (1 / 4 : ℚ) * (c : ℚ) = ((c : Nat) : ℚ) / ((4 : Nat) : ℚ) := by
    push_cast
    ring
  rw [h]
  apply jsRound_eq <;> omega

theorem round13 (m : Nat) :
    jsRound ((13 / 10 : ℚ) * (m : ℚ)) = (((13 * m + 5) / 10 : Nat) : Int) := by
  have h : (13 / 10 : ℚ) * (m : ℚ) = ((13 * m : Nat) : ℚ) / ((10 : Nat) : ℚ) := by
    push_cast
    ring
  rw [h]
  apply jsRound_eq <;> omega

theorem halfLtIff (x : Int) : ((x : ℚ) / 2 < 1000) ↔ x < 2000 := by
  constructor
  · intro h
    have hx : (x : ℚ) < 2000 := by linarith
    exact_mod_cast hx
  · intro h
    have hx : (x : ℚ) < 2000 := by exact_mod_cast h
    linarith

theorem halfLeIff (x : Int) : ((x : ℚ) / 2 ≤ 5000) ↔ x ≤ 10000 := by
  constructor
  · intro h
    have hx : (x : ℚ) ≤ 10000 := by linarith
    exact_mod_cast hx
  · intro h
    have hx : (x : ℚ) ≤ 10000 := by exact_mod_cast h
    linarith

/-! ## Claims -/

/-- Claim C1 (counterexample): the claim that `addRecord` always assigns a
fresh id distinct from every existing id is false on the code — the id is
`Date.now()`, so a second insertion within the same millisecond (clock
value 5 here, twice) duplicates the id of the record already present. -/
theorem C1_counterexample :
    ¬ (((addPrompt 5 "a" "b" (addPrompt 5 "t" "c" [])).map Prompt.id).Nodup) := by
  decide

/-- Claim C1 (amended): `addRecord` prepends the new record (newest-first)
in both variants, and identifier uniqueness is preserved provided the
clock instant used as the id differs from every id already present; in the
tracking variant this additionally requires the model name to validate. -/
theorem C1_addPrompt_unique (now : Nat) (title content modelName : String)
    (ps : List Prompt)
    (hfresh : toString now ∉ ps.map Prompt.id)
    (hnodup : (ps.map Prompt.id).Nodup) :
    (∃ r, addPrompt now title content ps = r :: ps ∧ r.id = toString now) ∧
    ((addPrompt now title content ps).map Prompt.id).Nodup ∧
    (jsTrim modelName ≠ "" → modelName.length ≤ 100 →
      (∃ r, addPromptTracking now title content modelName ps = r :: ps ∧
        r.id = toString now) ∧
      ((addPromptTracking now title content modelName ps).map Prompt.id).Nodup) := by
  refine ⟨⟨_, rfl, rfl⟩, ?_, ?_⟩
  · simp only [addPrompt, List.map_cons, List.nodup_cons]
    exact ⟨hfresh, hnodup⟩
  · intro h1 h2
    have hok : addPromptTracking now title content modelName ps
        = { id := toString now, title := jsTrim title, content := jsTrim content
            userRating := some 0, notes := none
            metadata := some { model := jsTrim modelName, createdAt := now, updatedAt := now
                               tokenEstimate := estimateTokensCore content false }
            createdAt := none, updatedAt := none } :: ps := by
      unfold addPromptTracking trackModel
      rw [if_neg h1, if_neg (by omega)]
    refine ⟨⟨_, hok, rfl⟩, ?_⟩
    rw [hok]
    simp only [List.map_cons, List.nodup_cons]
    exact ⟨hfresh, hnodup⟩

/-- Claim C1 witness: the amended theorem applied at a concrete collection
holding one record with id "5" and a fresh clock instant 7. -/
theorem C1_witness :
    (∃ r, addPrompt 7 "a" "b" [samplePrompt "5"] = r :: [samplePrompt "5"] ∧
      r.id = toString 7) ∧
    ((addPrompt 7 "a" "b" [samplePrompt "5"]).map Prompt.id).Nodup ∧
    ((∃ r, addPromptTracking 7 "a" "b" "gpt" [samplePrompt "5"] = r :: [samplePrompt "5"] ∧
      r.id = toString 7) ∧
    ((addPromptTracking 7 "a" "b" "gpt" [samplePrompt "5"]).map Prompt.id).Nodup) := by
  have h := C1_addPrompt_unique 7 "a" "b" "gpt" [samplePrompt "5"]
    (by decide) (by decide)
  exact ⟨h.1, h.2.1, h.2.2 (by decide) (by decide)⟩

/-- Claim C2: `setRating` is a silent no-op when the value is outside
[1,5] or when no record carries the id; when the value is in range and the
identifiers are unique (the collection invariant), it overwrites exactly
the matching record's `userRating` with `v`, leaving every other record
unchanged in place. -/
theorem C2_setRating (id : String) (v : Int) (ps : List Prompt) :
    ((v < 1 ∨ 5 < v) → setRating id v ps = ps) ∧
    ((∀ p ∈ ps, p.id ≠ id) → setRating id v ps = ps) ∧
    (1 ≤ v → v ≤ 5 → (ps.map Prompt.id).Nodup →
      setRating id v ps
        = ps.map (fun p => if p.id = id then { p with userRating := some v } else p)) := by
  refine ⟨?_, ?_, ?_⟩
  · intro h
    simp only [setRating, if_pos h]
  · intro h
    unfold setRating
    split
    · rfl
    · apply updateFirst_eq_of_forall_not
      intro x hx
      simp [h x hx]
  · intro h1 h2 hn
    unfold setRating
    rw [if_neg (by omega)]
    exact updateFirst_eq_map_of_nodup id _ ps hn

/-- Claim C2 witness: at rating 3 on a two-record collection the matching
record is updated and the rest untouched; out-of-range and missing-id
calls applied concretely via the same theorem. -/
theorem C2_witness :
    setRating "1" 3 [samplePrompt "1", samplePrompt "2"]
      = [{ samplePrompt "1" with userRating := some 3 }, samplePrompt "2"] ∧
    setRating "1" 6 [samplePrompt "1", samplePrompt "2"]
      = [samplePrompt "1", samplePrompt "2"] ∧
    setRating "9" 3 [samplePrompt "1", samplePrompt "2"]
      = [samplePrompt "1", samplePrompt "2"] := by
  refine ⟨?_, ?_, ?_⟩
  · have h := (C2_setRating "1" 3 [samplePrompt "1", samplePrompt "2"]).2.2
      (by decide) (by decide) (by decide)
    rw [h]
    decide
  · exact (C2_setRating "1" 6 [samplePrompt "1", samplePrompt "2"]).1 (by decide)
  · exact (C2_setRating "9" 3 [samplePrompt "1", samplePrompt "2"]).2.1 (by decide)

/-- Claim C3 (counterexample): the claim that `addRecord` fails and adds
no record whenever the title is empty after trimming is false on the code:
the core `addPrompt` performs no validation, so calling it with an empty
title inserts a record (the guard lives only in the form submit handler,
which silently returns without raising any error). -/
theorem C3_counterexample :
    (addPrompt 0 "" "x" []).length = 1 ∧ addPrompt 0 "" "x" [] ≠ [] := by
  decide

/-- Claim C3 (amended): the record-creation entry point — the form submit
handler — rejects a submission whose title or content (or, tracking
variant, model) is empty after trimming as a silent no-op (no record
added, no error raised); only the tracking variant's model-name validation
produces an error (`trackModel` throws), and in that case too no record is
added. -/
theorem C3_validation (now : Nat) (title content modelName : String) (ps : List Prompt) :
    (jsTrim title = "" ∨ jsTrim content = "" → handleSubmit now title content ps = ps) ∧
    (jsTrim title = "" ∨ jsTrim modelName = "" ∨ jsTrim content = "" →
      handleSubmitTracking now title modelName content ps = ps) ∧
    (jsTrim modelName = "" ∨ 100 < modelName.length →
      addPromptTracking now title content modelName ps = ps ∧
      isErr (trackModel now modelName content) = true) := by
  refine ⟨?_, ?_, ?_⟩
  · intro h
    simp only [handleSubmit, if_pos h]
  · intro h
    simp only [handleSubmitTracking, if_pos h]
  · intro h
    have herr : isErr (trackModel now modelName content) = true := by
      unfold trackModel
      rcases h with h | h
      · rw [if_pos h]
        rfl
      · by_cases h0 : jsTrim modelName = ""
        · rw [if_pos h0]
          rfl
        · rw [if_neg h0, if_pos h]
          rfl
    refine ⟨?_, herr⟩
    unfold addPromptTracking
    revert herr
    cases trackModel now modelName content with
    | error e => intro _; rfl
    | ok md => intro hc; exact absurd hc (by simp [isErr])

/-- Claim C3 witness: concrete rejected submissions — empty title through
both submit handlers, and an empty model name through the tracking
`addPrompt`, which errors in `trackModel` and adds nothing. -/
theorem C3_witness :
    handleSubmit 3 "" "c" [] = [] ∧
    handleSubmitTracking 3 "" "" "c" [] = [] ∧
    (addPromptTracking 3 "" "c" "" [] = [] ∧ isErr (trackModel 3 "" "c") = true) := by
  have h := C3_validation 3 "" "c" "" ([] : List Prompt)
  exact ⟨h.1 (Or.inl (by decide)), h.2.1 (Or.inl (by decide)), h.2.2 (Or.inl (by decide))⟩

/-- Claim C5: normalization of a raw decoded record coerces a missing
(non-numeric) `userRating` to 0 and a missing (non-array) `notes` to the
empty sequence, never touches `metadata`, is idempotent, and the render
path that performs it returns the persisted collection unchanged (it never
calls `savePrompts`). -/
theorem C5_normalizePrompt (p : Prompt) (st : List Prompt) :
    (p.userRating = none → (normalizePrompt p).userRating = some 0) ∧
    (p.notes = none → (normalizePrompt p).notes = some []) ∧
    (normalizePrompt p).metadata = p.metadata ∧
    normalizePrompt (normalizePrompt p) = normalizePrompt p ∧
    (renderPrompts st).1 = st := by
  refine ⟨?_, ?_, rfl, ?_, rfl⟩
  · intro h
    simp [normalizePrompt, h]
  · intro h
    simp [normalizePrompt, h]
  · simp [normalizePrompt]

/-- Claim C5 witness: a raw record lacking both fields is upgraded to
rating 0 and empty notes; normalization is idempotent on it and the render
path leaves a singleton store unchanged. -/
theorem C5_witness :
    (normalizePrompt rawPrompt).userRating = some 0 ∧
    (normalizePrompt rawPrompt).notes = some [] ∧
    (normalizePrompt rawPrompt).metadata = rawPrompt.metadata ∧
    normalizePrompt (normalizePrompt rawPrompt) = normalizePrompt rawPrompt ∧
    (renderPrompts [rawPrompt]).1 = [rawPrompt] := by
  have h := C5_normalizePrompt rawPrompt [rawPrompt]
  exact ⟨h.1 rfl, h.2.1 rfl, h.2.2.1, h.2.2.2.1, h.2.2.2.2⟩

/-- Claim C6: `deleteRecord` removes every record whose id matches,
preserves the relative order of the remaining records (the result is a
sublist of the input and every non-matching record stays), and is a
silent no-op — same collection, same length — when no record has the id. -/
theorem C6_deletePrompt (id : String) (ps : List Prompt) :
    (∀ p ∈ deletePrompt id ps, p.id ≠ id) ∧
    List.Sublist (deletePrompt id ps) ps ∧
    (∀ p ∈ ps, p.id ≠ id → p ∈ deletePrompt id ps) ∧
    ((∀ p ∈ ps, p.id ≠ id) →
      deletePrompt id ps = ps ∧ (deletePrompt id ps).length = ps.length) := by
  refine ⟨?_, ?_, ?_, ?_⟩
  · intro p hp
    have := List.of_mem_filter hp
    simpa using this
  · exact List.filter_sublist ps
  · intro p hp hne
    apply List.mem_filter.mpr
    exact ⟨hp, by simpa using hne⟩
  · intro h
    have he : deletePrompt id ps = ps :=
      List.filter_eq_self.mpr (fun p hp => by simpa using h p hp)
    exact ⟨he, by rw [he]⟩

/-- Claim C6 witness: deleting an absent id from a singleton collection
leaves it untouched with the same length. -/
theorem C6_witness :
    deletePrompt "9" [samplePrompt "1"] = [samplePrompt "1"] ∧
    (deletePrompt "9" [samplePrompt "1"]).length = ([samplePrompt "1"]).length := by
  exact (C6_deletePrompt "9" [samplePrompt "1"]).2.2.2 (by decide)

theorem round13_int (m : Nat) :
    jsRound ((13 / 10 : ℚ) * (((m : Nat) : Int) : ℚ)) = (((13 * m + 5) / 10 : Nat) : Int) := by
  have h : (((m : Nat) : Int) : ℚ) = (m : ℚ) := by push_cast; rfl
  rw [h]
  exact round13 m

/-- Claim C4: on string input, `estimateTokens` returns
`min = round(0.75 * wordCount)` and `max = round(0.25 * charCount)`
(closed Nat forms of the half-up rounding shown on the right), both
re-rounded after multiplying by 1.3 when the input is flagged as code;
confidence is "high" when the average of min and max is below 1000 (i.e.
their sum below 2000), "medium" when it is at most 5000, "low" otherwise;
and every non-string input fails with the validation error. -/
theorem C4_estimateTokens (s : String) (b : Bool) :
    estimateTokens (JSVal.str s) b = Except.ok (estimateTokensCore s b) ∧
    (estimateTokensCore s b).min =
      ((if b then (13 * ((3 * (wordsOf s).length + 2) / 4) + 5) / 10
        else (3 * (wordsOf s).length + 2) / 4 : Nat) : Int) ∧
    (estimateTokensCore s b).max =
      ((if b then (13 * ((s.length + 2) / 4) + 5) / 10
        else (s.length + 2) / 4 : Nat) : Int) ∧
    (estimateTokensCore s b).confidence =
      (if (estimateTokensCore s b).min + (estimateTokensCore s b).max < 2000 then "high"
       else if (estimateTokensCore s b).min + (estimateTokensCore s b).max ≤ 10000 then "medium"
       else "low") ∧
    estimateTokens JSVal.nonText b = Except.error "Text must be a string" := by
  refine ⟨rfl, ?_, ?_, ?_, rfl⟩
  · cases b with
    | false =>
      simp only [estimateTokensCore, if_false, Bool.false_eq_true]
      exact round075 _
    | true =>
      simp only [estimateTokensCore, if_true]
      rw [round075]
      exact round13_int _
  · cases b with
    | false =>
      simp only [estimateTokensCore, if_false, Bool.false_eq_true]
      exact round025 _
    | true =>
      simp only [estimateTokensCore, if_true]
      rw [round025]
      exact round13_int _
  · simp only [estimateTokensCore]
    apply if_congr (halfLtIff _) rfl
    apply if_congr (halfLeIff _) rfl rfl

/-- Claim C7: `load` returns the persisted collection when the storage key
holds a valid serialization, and the empty sequence — as an ordinary
return value, not an error — when the key is absent or the blob fails to
parse. -/
theorem C7_getPrompts (ps : List Prompt) (raw : String) :
    getPrompts (StorageCell.valid ps) = ps ∧
    getPrompts StorageCell.absent = [] ∧
    getPrompts (StorageCell.malformed raw) = [] :=
  ⟨rfl, rfl, rfl⟩

set_option maxRecDepth 4000 in
/-- Claim C8 (counterexample): the claim that the core never stores a note
text longer than 300 characters is false — `addNote` has no length check,
so a 301-character text is stored verbatim. -/
theorem C8_counterexample :
    300 < longText.length ∧
    addNote 7 "1" longText [samplePrompt "1"]
      = [{ samplePrompt "1" with
           notes := some [{ id := "7", text := longText, updatedAt := 7 }] }] := by
  constructor
  · decide
  · decide

/-- Claim C8 (amended): the core does not bound note text at all —
`addNote` and `updateNote` store the supplied text verbatim whatever its
length; the 300-character maximum exists only in the presentation layer's
input `maxlength` attribute. -/
theorem C8_noteVerbatim (now : Nat) (pid text : String) (p : Prompt) (h : p.id = pid) :
    addNote now pid text [p]
      = [{ p with notes := some ({ id := toString now, text := text, updatedAt := now }
            :: p.notes.getD []) }] ∧
    (∀ nid n, p.notes = some [n] → n.id = nid →
      updateNote now pid nid text [p]
        = [{ p with notes := some [{ n with text := text, updatedAt := now }] }]) := by
  constructor
  · simp [addNote, updateFirst, h]
  · intro nid n hn hnid
    simp [updateNote, updateFirst, h, hn, hnid]

/-- Claim C8 witness: the amended theorem at the oversized 301-character
text, for both `addNote` and `updateNote`. -/
theorem C8_witness :
    addNote 7 "1" longText [samplePrompt "1"]
      = [{ samplePrompt "1" with
           notes := some ({ id := toString 7, text := longText, updatedAt := 7 }
             :: (samplePrompt "1").notes.getD []) }] ∧
    updateNote 8 "1" "7" longText
        [{ samplePrompt "1" with notes := some [{ id := "7", text := "x", updatedAt := 7 }] }]
      = [{ { samplePrompt "1" with notes := some [{ id := "7", text := "x", updatedAt := 7 }] } with
           notes := some [{ { id := "7", text := "x", updatedAt := 7 : Note } with
             text := longText, updatedAt := 8 }] }] := by
  have h1 := C8_noteVerbatim 7 "1" longText (samplePrompt "1") rfl
  have h2 := C8_noteVerbatim 8 "1" longText
    ({ samplePrompt "1" with notes := some [{ id := "7", text := "x", updatedAt := 7 }] }) rfl
  exact ⟨h1.1, h2.2 "7" _ rfl rfl⟩

theorem sanitizeIncoming_length_le (now titleCap idCap : Nat)
    (freshId : Nat → String) (i : Nat) (l : List Prompt) :
    (sanitizeIncoming now titleCap idCap freshId i l).length ≤ l.length := by
  induction l generalizing i with
  | nil => simp [sanitizeIncoming]
  | cons r rs ih =>
    simp only [sanitizeIncoming]
    split
    · exact le_trans (ih (i + 1)) (by simp)
    · simp only [List.length_cons]
      exact Nat.succ_le_succ (ih (i + 1))

theorem sanitizeIncoming_map_id_of_valid (now titleCap idCap : Nat)
    (freshId : Nat → String) (i : Nat) (l : List Prompt)
    (h : ∀ r ∈ l, jsTrim r.title ≠ "" ∧ jsTrim r.content ≠ "" ∧
      r.id ≠ "" ∧ r.id.length ≤ idCap) :
    (sanitizeIncoming now titleCap idCap freshId i l).map Prompt.id
      = l.map Prompt.id := by
  induction l generalizing i with
  | nil => rfl
  | cons r rs ih =>
    have hr := h r (List.mem_cons_self r rs)
    have hrs : ∀ x ∈ rs, jsTrim x.title ≠ "" ∧ jsTrim x.content ≠ "" ∧
        x.id ≠ "" ∧ x.id.length ≤ idCap :=
      fun x hx => h x (List.mem_cons_of_mem r hx)
    simp only [sanitizeIncoming]
    rw [if_neg (by push_neg; exact ⟨hr.1, hr.2.1⟩)]
    simp only [List.map_cons]
    congr 1
    · simp only [sanitizeRecord]
      rw [if_neg]
      push_neg
      refine ⟨hr.2.2.1, ?_⟩
      have := hr.2.2.2
      omega
    · exact ih (i + 1) hrs

/-- Claim C9 (modelled from the spec, as `mergeById` is not under src/):
the full merge pipeline — sanitize the incoming records (drop entries with
an empty trimmed title or content, assign fresh ids to missing/oversized
ids, cap the title, stamp `updatedAt`), union by id with existing winning,
re-sort newest-first by creation instant — satisfies the claimed laws on
collections obeying the collection invariant (records as `addRecord`
creates them — non-empty trimmed title and content, well-formed id —
stored newest-first): `mergeById(A, A)` equals `A` as a set by id,
`mergeById(A, [])` equals `A`, the result's size is at most `|A| + |B|`,
every existing record survives verbatim (import never overwrites), and
every merged record is an existing one or carries an id not present in
the existing collection. -/
theorem C9_mergeById (now titleCap idCap : Nat) (freshId : Nat → String)
    (A B : List Prompt)
    (hvalid : ∀ r ∈ A, jsTrim r.title ≠ "" ∧ jsTrim r.content ≠ "" ∧
      r.id ≠ "" ∧ r.id.length ≤ idCap) :
    ((mergeById now titleCap idCap freshId A A).map Prompt.id).Perm
      (A.map Prompt.id) ∧
    (A.Pairwise (fun a b => newestFirst a b = true) →
      mergeById now titleCap idCap freshId A [] = A) ∧
    (mergeById now titleCap idCap freshId A B).length ≤ A.length + B.length ∧
    List.Subperm A (mergeById now titleCap idCap freshId A B) ∧
    (∀ r ∈ mergeById now titleCap idCap freshId A B,
      r ∈ A ∨ r.id ∉ A.map Prompt.id) := by
  have hids : (sanitizeIncoming now titleCap idCap freshId 0 A).map Prompt.id
      = A.map Prompt.id :=
    sanitizeIncoming_map_id_of_valid now titleCap idCap freshId 0 A hvalid
  refine ⟨?_, ?_, ?_, ?_, ?_⟩
  · have hfilter : (sanitizeIncoming now titleCap idCap freshId 0 A).filter
        (fun r => !(A.any (fun e => e.id == r.id))) = [] := by
      apply List.filter_eq_nil_iff.mpr
      intro r hr
      have hmem : r.id ∈ A.map Prompt.id := by
        rw [← hids]
        exact List.mem_map_of_mem Prompt.id hr
      rcases List.mem_map.mp hmem with ⟨e, he, heq⟩
      simp only [Bool.not_eq_true', Bool.not_eq_false]
      exact List.any_eq_true.mpr ⟨e, he, by simp [heq]⟩
    have hunion : unionById A (sanitizeIncoming now titleCap idCap freshId 0 A) = A := by
      unfold unionById
      rw [hfilter, List.append_nil]
    have hperm : (mergeById now titleCap idCap freshId A A).Perm A := by
      unfold mergeById sortNewestFirst
      rw [hunion]
      exact List.mergeSort_perm A newestFirst
    exact hperm.map Prompt.id
  · intro hsorted
    unfold mergeById sortNewestFirst
    have hnil : sanitizeIncoming now titleCap idCap freshId 0 ([] : List Prompt) = [] := rfl
    rw [hnil]
    have hu : unionById A [] = A := by
      unfold unionById
      simp
    rw [hu]
    exact List.mergeSort_of_sorted hsorted
  · unfold mergeById sortNewestFirst
    rw [List.Perm.length_eq (List.mergeSort_perm _ newestFirst)]
    unfold unionById
    rw [List.length_append]
    have h1 := List.length_filter_le
      (fun r => !(A.any (fun e => e.id == r.id)))
      (sanitizeIncoming now titleCap idCap freshId 0 B)
    have h2 := sanitizeIncoming_length_le now titleCap idCap freshId 0 B
    omega
  · unfold mergeById sortNewestFirst
    have h1 : List.Sublist A
        (unionById A (sanitizeIncoming now titleCap idCap freshId 0 B)) := by
      unfold unionById
      exact List.sublist_append_left A _
    exact h1.subperm.trans (List.mergeSort_perm _ newestFirst).symm.subperm
  · intro r hr
    unfold mergeById sortNewestFirst at hr
    have hr' : r ∈ unionById A (sanitizeIncoming now titleCap idCap freshId 0 B) :=
      (List.mergeSort_perm _ newestFirst).mem_iff.mp hr
    unfold unionById at hr'
    rcases List.mem_append.mp hr' with h | h
    · exact Or.inl h
    · right
      have hp := List.of_mem_filter h
      intro hmem
      rcases List.mem_map.mp hmem with ⟨e, he, heq⟩
      have hany : A.any (fun e' => e'.id == r.id) = true :=
        List.any_eq_true.mpr ⟨e, he, by simp [heq]⟩
      rw [hany] at hp
      simp at hp

/-- Claim C9 witness: the merge laws applied at a concrete valid,
newest-first singleton collection, merged with itself, with the empty
collection, and with a distinct incoming singleton. -/
theorem C9_witness :
    ((mergeById 9 100 100 (fun i => toString i) [samplePrompt "1"]
        [samplePrompt "1"]).map Prompt.id).Perm
      ([samplePrompt "1"].map Prompt.id) ∧
    mergeById 9 100 100 (fun i => toString i) [samplePrompt "1"] [] = [samplePrompt "1"] ∧
    (mergeById 9 100 100 (fun i => toString i) [samplePrompt "1"]
        [samplePrompt "2"]).length
      ≤ ([samplePrompt "1"] : List Prompt).length
        + ([samplePrompt "2"] : List Prompt).length ∧
    List.Subperm [samplePrompt "1"]
      (mergeById 9 100 100 (fun i => toString i) [samplePrompt "1"] [samplePrompt "2"]) := by
  have h := C9_mergeById 9 100 100 (fun i => toString i)
    [samplePrompt "1"] [samplePrompt "2"] (by decide)
  exact ⟨h.1, h.2.1 (by decide), h.2.2.1, h.2.2.2.1⟩

/-- Claim C10: every single-record mutation — `setRating`, `addNote`,
`updateNote`, `deleteNote` — writes back each record whose (stringified)
id differs from the targeted id unchanged and at its original position. -/
theorem C10_frame (v : Int) (now now2 : Nat) (tid nid text text2 : String)
    (ps : List Prompt) (i : Nat) (q : Prompt)
    (hq : ps[i]? = some q) (hne : q.id ≠ tid) :
    (setRating tid v ps)[i]? = some q ∧
    (addNote now tid text ps)[i]? = some q ∧
    (deleteNote tid nid ps)[i]? = some q ∧
    (updateNote now2 tid nid text2 ps)[i]? = some q := by
  have hk : (q.id == tid) = false := by simp [hne]
  refine ⟨?_, ?_, ?_, ?_⟩
  · unfold setRating
    split
    · exact hq
    · exact updateFirst_getElem? _ _ _ _ _ hq hk
  · unfold addNote
    exact updateFirst_getElem? _ _ _ _ _ hq hk
  · unfold deleteNote
    split
    · exact hq
    · exact updateFirst_getElem? _ _ _ _ _ hq hk
  · unfold updateNote
    exact updateFirst_getElem? _ _ _ _ _ hq hk

/-- Claim C10 witness: all four mutations targeting id "1" leave the
record with id "2" in place, intact, at index 0. -/
theorem C10_witness :
    (setRating "1" 4 [samplePrompt "2"])[0]? = some (samplePrompt "2") ∧
    (addNote 3 "1" "n" [samplePrompt "2"])[0]? = some (samplePrompt "2") ∧
    (deleteNote "1" "9" [samplePrompt "2"])[0]? = some (samplePrompt "2") ∧
    (updateNote 3 "1" "9" "n" [samplePrompt "2"])[0]? = some (samplePrompt "2") :=
  C10_frame 4 3 3 "1" "9" "n" "n" [samplePrompt "2"] 0 (samplePrompt "2")
    (by decide) (by decide)
